import Mathlib

/-!
Verification development for the Jarvis voice-assistant core
(`src/core/audio.py`, `src/core/wake_word.py`, `src/tools/router.py`).

The Python source is shallowly embedded below: pure helper functions become
Lean functions over `List Char` (Python `str`) and `ℚ` (Python floats /
wall-clock durations), the audio-callback queue becomes an explicit queue
state, and the `record_speech` loop becomes a step function over the list of
arriving chunks, each chunk paired with its arrival time measured from the
start of the call.
-/

attribute [local semireducible] Rat.add Rat.sub Rat.mul Rat.inv

/-! ### Python string primitives -/

/-- Shorthand: the character list of a string literal (Python `str` values
are modelled as `List Char`). -/
def cs (s : String) : List Char := s.toList

/-- Python `sub in s` substring test. -/
def hasSub (sub : List Char) : List Char → Bool
  | [] => sub.isEmpty
  | c :: r => sub.isPrefixOf (c :: r) || hasSub sub r

/-- Python `any(kw in s for kw in kws)`. -/
def anySub (s : List Char) (kws : List (List Char)) : Bool :=
  kws.any (fun k => hasSub k s)

/-- Characters treated as whitespace by Python `str.strip()` (ASCII range). -/
def pyWs (c : Char) : Bool :=
  c = ' ' || c = '\t' || c = '\n' || c = '\r' || c = '\x0b' || c = '\x0c'

/-- Python `str.strip()`. -/
def pyStrip (s : List Char) : List Char :=
  ((s.dropWhile pyWs).reverse.dropWhile pyWs).reverse

/-- Python `str.lower()` (ASCII case folding, which is all the router uses). -/
def pyLower (s : List Char) : List Char := s.map Char.toLower

/-- Worker for `removeAll`: when `skip` is positive, the current character
belongs to an occurrence of `pat` already recognised and is dropped; at
`skip = 0` a fresh occurrence of `pat` starting here is recognised (and its
remaining `pat.length - 1` characters scheduled for dropping), otherwise the
character is kept. -/
def removeAllGo (pat : List Char) : List Char → ℕ → List Char
  | [], _ => []
  | _ :: r, skip + 1 => removeAllGo pat r skip
  | c :: r, 0 =>
    if pat ≠ [] ∧ pat.isPrefixOf (c :: r) then
      removeAllGo pat r (pat.length - 1)
    else
      c :: removeAllGo pat r 0

/-- Python `s.replace(pat, "")` — removes every occurrence of `pat`. -/
def removeAll (pat : List Char) (s : List Char) : List Char :=
  removeAllGo pat s 0

/-- Python `s.split(pat, 1)[1]` — the remainder after the first occurrence of
`pat`; returns `s` unchanged when `pat` does not occur (every call site in the
source guards with `pat in s` first). -/
def afterFirst (pat : List Char) : List Char → List Char
  | [] => []
  | c :: r =>
    if pat.isPrefixOf (c :: r) then (c :: r).drop pat.length
    else afterFirst pat r

/-- Python `str.title()`: a cased character following a non-alphabetic
character is uppercased, every other alphabetic character lowercased. -/
def pyTitleGo (prevAlpha : Bool) : List Char → List Char
  | [] => []
  | c :: r =>
    (if prevAlpha then c.toLower else c.toUpper) :: pyTitleGo c.isAlpha r

/-- Python `str.title()`. -/
def pyTitle (s : List Char) : List Char := pyTitleGo false s

/-- Worker for `digitRuns`: the second argument is the digit run currently
being read, in reverse. -/
def digitRunsGo : List Char → List Char → List (List Char)
  | [], run => if run.isEmpty then [] else [run.reverse]
  | c :: r, run =>
    if c.isDigit then digitRunsGo r (c :: run)
    else if run.isEmpty then digitRunsGo r []
    else run.reverse :: digitRunsGo r []

/-- Maximal runs of decimal digits, in order: Python `re.findall(r"[0-9]+", s)`. -/
def digitRuns (s : List Char) : List (List Char) :=
  digitRunsGo s []

/-- Python `int(digits)` for a run of decimal digits. -/
def natOfDigits (ds : List Char) : ℕ :=
  ds.foldl (fun a c => a * 10 + (c.toNat - 48)) 0

/-! ### The audio-callback queue (`AudioCapture.__init__` / `_audio_callback`)

`queue.Queue` is modelled by its `maxsize` (0 = unbounded, the Python
default used by the source: `queue.Queue()`) together with the list of queued
items, oldest first.  `put` with the default `block=True` blocks the caller
when a positive `maxsize` is reached; a blocked call is modelled as `none`. -/

structure PyQueue (α : Type) where
  maxsize : ℕ
  items : List α
deriving Repr, DecidableEq

/-- Python `queue.Queue.full()` for `maxsize` semantics: full iff a positive
bound is reached. -/
def PyQueue.isFull {α : Type} (q : PyQueue α) : Bool :=
  0 < q.maxsize && q.maxsize ≤ q.items.length

/-- Python `queue.Queue.put(x)` with default `block=True`: blocks (`none`)
when full, otherwise appends the item at the newest end. -/
def PyQueue.put {α : Type} (q : PyQueue α) (x : α) : Option (PyQueue α) :=
  if q.isFull then none else some { q with items := q.items ++ [x] }

/-- The queue constructed in `AudioCapture.__init__`: `queue.Queue()`,
whose `maxsize` defaults to 0 (unbounded). -/
def audioQueueInit (α : Type) : PyQueue α := ⟨0, []⟩

/-- One invocation of `AudioCapture._audio_callback` as it affects the queue:
the (already filtered) chunk is `put` on the queue.  `none` means the
callback would block. -/
def audioCallback {α : Type} (q : PyQueue α) (chunk : α) : Option (PyQueue α) :=
  q.put chunk

/-- A sequence of audio-callback invocations starting from queue `q`,
with no consumer running. -/
def audioCallbacks {α : Type} (q : PyQueue α) (chunks : List α) : Option (PyQueue α) :=
  chunks.foldlM audioCallback q

/-! ### The utterance recorder (`AudioCapture.record_speech`)

A chunk is represented by the pair `(t, e)` of its arrival time `t` (seconds
since `recording_start`; the queue was flushed at the start of the call, so
times are positive and increasing for a live stream) and its RMS energy `e`
(`_rms_energy` output).  All `time.time()` readings taken while one chunk is
being handled are identified with that chunk arrival time.  Energies and
times are rationals standing in for the Python floats. -/

structure RecCfg where
  /-- `audio_cfg["silence_threshold"]` (30 in the shipped configuration). -/
  thresh : ℚ
  /-- `audio_cfg["max_recording_seconds"]` (8 in the shipped configuration). -/
  maxRec : ℚ
  /-- `audio_cfg["silence_duration_to_stop"]` (2.0). -/
  silenceStop : ℚ
  /-- `audio_cfg.get("min_recording_seconds", 2.0)` (2.0). -/
  minRec : ℚ
deriving Repr, DecidableEq

/-- The shipped configuration of `config/jarvis_config.yaml` as documented by
the inline comments of `AudioCapture.__init__` (threshold 30, cap 8 s,
silence stop 2.0 s, minimum 2.0 s). -/
def jarvisRecCfg : RecCfg := ⟨30, 8, 2, 2⟩

/-- Mutable loop state of `record_speech`: `speech_started`,
`speech_start_time`, `silence_start`, and the number of chunks accumulated in
`all_chunks`. -/
structure RecSt where
  started : Bool
  speechStart : ℚ
  silenceStart : Option ℚ
  count : ℕ
deriving Repr, DecidableEq

/-- Why the `while` loop of `record_speech` stopped collecting. -/
inductive StopReason
  /-- `elapsed > max_recording_seconds` fired (`break` at the top of the loop). -/
  | cap
  /-- the minimum-duration plus continuous-silence condition fired. -/
  | silence
deriving Repr, DecidableEq

/-- Observable outcome of `record_speech`.  `captured r n se` is a returned
utterance of `n` chunks (stop reason `r`, with `se` seconds of detected
speech at the stop); `noSpeech` is the `return None` of the 8-second
no-speech grace check; `noAudio` is the `return None` for an empty
`all_chunks`; `ranOut n` means the supplied chunk sequence was exhausted with
the loop still waiting for more audio. -/
inductive RecResult
  | noSpeech
  | noAudio
  | captured (r : StopReason) (n : ℕ) (se : ℚ)
  | ranOut (n : ℕ)
deriving Repr, DecidableEq

/-- Did `record_speech` return within the supplied chunk sequence? -/
def RecResult.isReturn : RecResult → Bool
  | .ranOut _ => false
  | _ => true

/-- Result together with the time (seconds from `recording_start`) at which
the function returned, i.e. the arrival time of the chunk being handled. -/
structure RecOut where
  result : RecResult
  retTime : ℚ
deriving Repr, DecidableEq

/-- The `while True` loop of `record_speech`, one step per chunk taken from
the queue, translated branch for branch from the source:
cap check, energy, append, speech-start / grace check, silence tracking and
the dual minimum-duration + silence-stop condition. -/
def recordLoop (cfg : RecCfg) : List (ℚ × ℚ) → RecSt → RecOut
  | [], st => ⟨.ranOut st.count, 0⟩
  | (t, e) :: rest, st =>
    if cfg.maxRec < t then
      -- `break`, then `if not all_chunks: return None` else concatenate
      ⟨if st.count = 0 then .noAudio
        else .captured .cap st.count (if st.started then t - st.speechStart else 0), t⟩
    else
      -- energy computed, chunk appended to `all_chunks`
      let st1 : RecSt := { st with count := st.count + 1 }
      if !st1.started then
        if cfg.thresh < e then
          recordLoop cfg rest { st1 with started := true, speechStart := t }
        else if 8 < t then ⟨.noSpeech, t⟩
        else recordLoop cfg rest st1
      else
        if cfg.thresh < e then
          recordLoop cfg rest { st1 with silenceStart := none }
        else
          let s0 := st1.silenceStart.getD t
          if cfg.minRec ≤ t - st1.speechStart ∧ cfg.silenceStop ≤ t - s0 then
            ⟨.captured .silence st1.count (t - st1.speechStart), t⟩
          else recordLoop cfg rest { st1 with silenceStart := some s0 }

/-- `record_speech` on a given arriving chunk sequence (the initial
`flush_queue` is reflected in the sequence containing only post-flush
chunks with times counted from the start of the call). -/
def recordSpeech (cfg : RecCfg) (chunks : List (ℚ × ℚ)) : RecOut :=
  recordLoop cfg chunks ⟨false, 0, none, 0⟩

/-- A chunk stream is steady for interval `dt` after time `tprev`: each chunk
arrives at most `dt` after the previous one (the capture stream delivers a
chunk every `chunk_duration_ms`). -/
def steady (dt : ℚ) : ℚ → List (ℚ × ℚ) → Bool
  | _, [] => true
  | tprev, (t, _) :: rest => decide (t ≤ tprev + dt) && steady dt t rest

/-- Helper for `streamChunks`: arrival times accumulate by `dt` from `tprev`. -/
def streamChunksGo (dt : ℚ) (f : ℕ → ℚ) : ℕ → ℕ → ℚ → List (ℚ × ℚ)
  | 0, _, _ => []
  | n + 1, k, tprev => (tprev + dt, f k) :: streamChunksGo dt f n (k + 1) (tprev + dt)

/-- The idealized live capture stream: chunk `k` arrives `(k+1)·dt` seconds
after the recording starts, with energy `f k`. -/
def streamChunks (dt : ℚ) (n : ℕ) (f : ℕ → ℚ) : List (ℚ × ℚ) :=
  streamChunksGo dt f n 0 0

/-! ### Wake-word detection (`WakeWordDetector.listen_and_detect`)

The listening window is represented by the list of per-chunk RMS energies
(`_chunk_rms` outputs, as rationals); the transcription collaborator is an
oracle whose answer for this window is the `result["text"]` string.  The
model returns the boolean trigger together with the number of transcription
calls made, so that gate short-circuiting is observable. -/

/-- `min_rms`, hard-coded to 15.0 in `WakeWordDetector.__init__`. -/
def wakeMinRms : ℚ := 15

/-- `peak_rms`, hard-coded to 80.0 in `WakeWordDetector.__init__`. -/
def wakePeakRms : ℚ := 80

/-- The default `trigger_phrases` list of `WakeWordDetector.__init__`. -/
def defaultTriggerPhrases : List (List Char) :=
  [cs "jarvis", cs "jalvis",
   cs "hey jarvis", cs "hey jalvis",
   cs "hi jarvis", cs "hi jalvis",
   cs "okay jarvis", cs "okay jalvis"]

/-- The punctuation characters removed from the transcription result. -/
def wakePunct : List Char := [',', '.', '!', '?', ';', ':', '\"', '\x27']

/-- The fixed hallucination rejection set of `listen_and_detect`. -/
def hallucinationSet : List (List Char) :=
  [cs "thank you", cs "thanks for watching", cs "subscribe",
   cs "you", cs "bye", cs "the end", cs "music", cs "applause",
   cs "silence", cs "so", cs "okay", cs "oh", cs "hmm", cs "um",
   cs "thank you for watching", cs "please subscribe",
   cs "like and subscribe", cs "see you next time",
   cs "thanks", cs "the", cs "and", cs "i", cs "a", cs "it"]

/-- Result cleaning in `listen_and_detect`:
`result.get("text", "").strip().lower()`, removal of every punctuation
character, and a final `strip()`. -/
def cleanTranscript (text : List Char) : List Char :=
  pyStrip ((pyLower (pyStrip text)).filter (fun c => !wakePunct.contains c))

/-- Trigger decision taken on the transcription result: hallucination-set
rejection, minimum length 3, then the substring scan over the configured
trigger phrases (`return False` if the loop finds no phrase). -/
def wakeTextDecision (phrases : List (List Char)) (text : List Char) : Bool :=
  let t := cleanTranscript text
  if hallucinationSet.contains t then false
  else if t.length < 3 then false
  else if !t.isEmpty then phrases.any (fun p => hasSub p t)
  else false

/-- `listen_and_detect` over a collected window with per-chunk energies
`es`: the two energy gates, then (only on passing both) one transcription
call whose text is handled by `wakeTextDecision`.  Returns the trigger
boolean and the number of transcription calls. -/
def listenAndDetect (phrases : List (List Char)) (es : List ℚ)
    (transcript : List Char) : Bool × ℕ :=
  let avgRms := es.sum / es.length
  let maxRms := es.foldl max 0
  if avgRms < wakeMinRms then (false, 0)
  else if maxRms < wakePeakRms then (false, 0)
  else (wakeTextDecision phrases transcript, 1)

/-! ### Stage-1 keyword routing (`ToolRouter._keyword_route`)

A classification is the Python dict
`tool / action / params`; parameter values are strings or (for
`level` / `minutes`) non-negative integers.  Each `if` block of
`_keyword_route` becomes one step function; a step either returns from the
function (with a classification or with Python `None`) or falls through to
the next block. -/

inductive PVal
  | s (v : List Char)
  | n (v : ℕ)
deriving Repr, DecidableEq

structure Classification where
  tool : List Char
  action : List Char
  params : List (List Char × PVal)
deriving Repr, DecidableEq

/-- Outcome of one keyword block: `ret r` is a `return` statement with value
`r` (`none` being Python `None`), `pass` falls through to the next block. -/
inductive KwStep
  | pass
  | ret (r : Option Classification)
deriving Repr, DecidableEq

/-- First `return` taken among the keyword blocks; if every block falls
through, `_keyword_route` returns `None`. -/
def runKw : List KwStep → Option Classification
  | [] => none
  | .pass :: rest => runKw rest
  | .ret r :: _ => r

/-- Time-query block. -/
def timeKw (t : List Char) : KwStep :=
  if anySub t [cs "what time", cs "current time", cs "tell me the time",
      cs "what\x27s the time", cs "what is the time", cs "time right now",
      cs "time please"] then
    .ret (some ⟨cs "system_info", cs "time", []⟩)
  else .pass

/-- Date-query block. -/
def dateKw (t : List Char) : KwStep :=
  if anySub t [cs "what date", cs "current date", cs "what day",
      cs "today\x27s date", cs "what is today", cs "which day", cs "date today"] then
    .ret (some ⟨cs "system_info", cs "date", []⟩)
  else .pass

/-- Battery-query block. -/
def batteryKw (t : List Char) : KwStep :=
  if anySub t [cs "battery", cs "charge level", cs "power left",
      cs "how much charge", cs "battery percentage", cs "battery life"] then
    .ret (some ⟨cs "system_info", cs "battery", []⟩)
  else .pass

/-- Vision OCR block (params carry the original, uncased `user_text`). -/
def visionOcrKw (u t : List Char) : KwStep :=
  if anySub t [cs "read my screen", cs "read the screen", cs "read the text",
      cs "what text", cs "text on screen", cs "ocr", cs "extract text",
      cs "what does my screen say"] then
    .ret (some ⟨cs "vision", cs "ocr", [(cs "question", .s u)]⟩)
  else .pass

/-- Vision describe-screen block. -/
def visionScreenKw (u t : List Char) : KwStep :=
  if anySub t [cs "what\x27s on my screen", cs "whats on my screen",
      cs "describe my screen", cs "look at my screen",
      cs "what do you see on my screen", cs "what app is open",
      cs "what am i looking at", cs "what am i working on", cs "describe screen"] then
    .ret (some ⟨cs "vision", cs "describe_screen", [(cs "question", .s u)]⟩)
  else .pass

/-- Vision webcam block. -/
def visionWebcamKw (u t : List Char) : KwStep :=
  if anySub t [cs "what do you see", cs "can you see me", cs "look at me",
      cs "webcam", cs "camera", cs "what am i wearing",
      cs "how do i look", cs "who do you see", cs "describe me"] then
    .ret (some ⟨cs "vision", cs "describe_webcam", [(cs "question", .s u)]⟩)
  else .pass

/-- Code-execution block. -/
def codeKw (u t : List Char) : KwStep :=
  if anySub t [cs "write a script", cs "write a program", cs "write code",
      cs "run a script", cs "execute code", cs "python script", cs "write python",
      cs "code that", cs "make a script", cs "create a script", cs "run python",
      cs "write a python", cs "write me a", cs "automate", cs "sort my",
      cs "fetch api", cs "system check", cs "disk usage", cs "list files"] then
    .ret (some ⟨cs "code_executor", cs "run", [(cs "request", .s u)]⟩)
  else .pass

/-- Weather / temperature block. -/
def weatherKw (u t : List Char) : KwStep :=
  if anySub t [cs "weather", cs "temperature", cs "how hot", cs "how cold",
      cs "forecast", cs "rain today", cs "humidity", cs "sunny", cs "cloudy",
      cs "wind speed"] then
    .ret (some ⟨cs "web_search", cs "search", [(cs "query", .s u)]⟩)
  else .pass

/-- Current events / prices / scores block. -/
def eventsKw (u t : List Char) : KwStep :=
  if anySub t [cs "price of", cs "stock price", cs "bitcoin", cs "crypto",
      cs "score", cs "who won", cs "match result", cs "latest news",
      cs "current news", cs "headlines", cs "trending", cs "election", cs "ipl"] then
    .ret (some ⟨cs "web_search", cs "search", [(cs "query", .s u)]⟩)
  else .pass

/-- Explicit search-intent block. -/
def searchKw (u t : List Char) : KwStep :=
  if anySub t [cs "search for", cs "look up", cs "google", cs "find out",
      cs "search about", cs "tell me about the latest", cs "what is happening"] then
    .ret (some ⟨cs "web_search", cs "search", [(cs "query", .s u)]⟩)
  else .pass

/-- WhatsApp block: on match `_keyword_route` executes `return None`
(deferring extraction to Stage 2), which stops the keyword scan. -/
def whatsappKw (t : List Char) : KwStep :=
  if anySub t [cs "send a whatsapp", cs "whatsapp message", cs "message to",
      cs "text to", cs "send message to", cs "send a message"] then
    .ret none
  else .pass

/-- First of `pats` that occurs in `t`, mapped to the stripped remainder
after its first occurrence: the `for prefix in [...]: if prefix in app:
app = app.split(prefix, 1)[1].strip(); break` loops. -/
def firstStrip (t : List Char) : List (List Char) → Option (List Char)
  | [] => none
  | p :: ps => if hasSub p t then some (pyStrip (afterFirst p t)) else firstStrip t ps

/-- The reminder-message scan: the first of the `to/that/about` triggers
occurring in `t` whose following text is non-empty and not digit-initial
supplies the message; an occurring trigger with invalid following text
falls through to the next trigger. -/
def firstMsg (t : List Char) : List (List Char) → Option (List Char)
  | [] => none
  | trig :: rest =>
    if hasSub trig t then
      let candidate := pyStrip (afterFirst trig t)
      if !candidate.isEmpty && !(candidate.headD ' ').isDigit then some candidate
      else firstMsg t rest
    else firstMsg t rest

/-- `_extract_app_name`: strip the first matching open/launch verb phrase,
remove filler suffix words, drop punctuation, and title-case. -/
def extractAppName (t : List Char) : List Char :=
  let afterVerb :=
    (firstStrip t
      [cs "can you please open ", cs "can you open ", cs "could you open ",
       cs "please open the ", cs "please open ", cs "please launch ",
       cs "open the ", cs "open ", cs "launch the ", cs "launch ",
       cs "start the ", cs "start "]).getD t
  let noFiller :=
    List.foldl (fun a suf => pyStrip (removeAll suf a)) afterVerb
      [cs " app", cs " application", cs " browser", cs " please",
       cs " for me", cs " right now", cs " now"]
  let noPunct := pyStrip (noFiller.filter (fun c => !([ '?', '!', '.', ','].contains c)))
  if noPunct.isEmpty then [] else pyTitle noPunct

/-- App-launch block, with its guard against WhatsApp-ish phrasings; an
empty extracted name falls through. -/
def openAppKw (t : List Char) : KwStep :=
  if anySub t [cs "open ", cs "launch ", cs "start "]
      && !anySub t [cs "whatsapp message", cs "send a", cs "message to"] then
    if !(extractAppName t).isEmpty then
      .ret (some ⟨cs "mac_control", cs "open_app", [(cs "app", .s (extractAppName t))]⟩)
    else .pass
  else .pass

/-- The app-name computation of the close-app block: strip the first
matching close/quit/exit prefix, remove filler suffixes, title-case. -/
def closeAppName (t : List Char) : List Char :=
  pyTitle
    (List.foldl (fun a suf => pyStrip (removeAll suf a))
      ((firstStrip t [cs "close the ", cs "close ", cs "quit ", cs "exit "]).getD t)
      [cs " app", cs " application", cs " please", cs " for me"])

/-- Close-app block: strip the first matching close/quit/exit prefix, remove
filler suffixes, title-case; an empty name falls through. -/
def closeAppKw (t : List Char) : KwStep :=
  if hasSub (cs "close ") t || hasSub (cs "quit ") t || hasSub (cs "exit ") t then
    if !(closeAppName t).isEmpty then
      .ret (some ⟨cs "mac_control", cs "close_app", [(cs "app", .s (closeAppName t))]⟩)
    else .pass
  else .pass

/-- Volume block: mute / unmute / max / up / down, then numeric-token
extraction capped with `min(int(numbers[0]), 100)`, defaulting to
`volume_up`. -/
def volumeKw (t : List Char) : KwStep :=
  if anySub t [cs "volume", cs "mute", cs "unmute"] then
    if hasSub (cs "mute") t && !hasSub (cs "unmute") t then
      .ret (some ⟨cs "mac_control", cs "volume_mute", []⟩)
    else if hasSub (cs "unmute") t then
      .ret (some ⟨cs "mac_control", cs "volume_set", [(cs "level", .n 50)]⟩)
    else if hasSub (cs "max") t || hasSub (cs "full") t || hasSub (cs "100") t then
      .ret (some ⟨cs "mac_control", cs "volume_set", [(cs "level", .n 100)]⟩)
    else if hasSub (cs "up") t || hasSub (cs "increase") t || hasSub (cs "raise") t
        || hasSub (cs "higher") t then
      .ret (some ⟨cs "mac_control", cs "volume_up", []⟩)
    else if hasSub (cs "down") t || hasSub (cs "decrease") t || hasSub (cs "lower") t
        || hasSub (cs "reduce") t then
      .ret (some ⟨cs "mac_control", cs "volume_down", []⟩)
    else
      match digitRuns t with
      | d :: _ =>
        .ret (some ⟨cs "mac_control", cs "volume_set",
          [(cs "level", .n (Nat.min (natOfDigits d) 100))]⟩)
      | [] => .ret (some ⟨cs "mac_control", cs "volume_up", []⟩)
  else .pass

/-- Brightness block. -/
def brightnessKw (t : List Char) : KwStep :=
  if hasSub (cs "brightness") t then
    if hasSub (cs "max") t || hasSub (cs "full") t || hasSub (cs "100") t then
      .ret (some ⟨cs "mac_control", cs "brightness_up", []⟩)
    else if hasSub (cs "up") t || hasSub (cs "increase") t || hasSub (cs "raise") t
        || hasSub (cs "higher") t then
      .ret (some ⟨cs "mac_control", cs "brightness_up", []⟩)
    else if hasSub (cs "down") t || hasSub (cs "decrease") t || hasSub (cs "lower") t
        || hasSub (cs "reduce") t || hasSub (cs "dim") t then
      .ret (some ⟨cs "mac_control", cs "brightness_down", []⟩)
    else if hasSub (cs "min") t || hasSub (cs "low") t then
      .ret (some ⟨cs "mac_control", cs "brightness_down", []⟩)
    else .ret (some ⟨cs "mac_control", cs "brightness_up", []⟩)
  else .pass

/-- Screenshot block. -/
def screenshotKw (t : List Char) : KwStep :=
  if hasSub (cs "screenshot") t || hasSub (cs "screen shot") t then
    .ret (some ⟨cs "mac_control", cs "screenshot", []⟩)
  else .pass

/-- Lock-screen block. -/
def lockKw (t : List Char) : KwStep :=
  if anySub t [cs "lock screen", cs "lock the screen", cs "lock my mac"] then
    .ret (some ⟨cs "mac_control", cs "lock", []⟩)
  else .pass

/-- Timer / reminder block: first numeric run (default 5 minutes), then the
first of the `to/that/about` triggers whose following text is non-empty and
not digit-initial supplies the reminder message. -/
def timerKw (t : List Char) : KwStep :=
  if anySub t [cs "set a timer", cs "set timer", cs "remind me",
      cs "set a reminder", cs "countdown", cs "alarm", cs "timer for"] then
    let minutes := match digitRuns t with
      | d :: _ => natOfDigits d
      | [] => 5
    let message := firstMsg t [cs "to ", cs "that ", cs "about "]
    match message with
    | some m =>
      if hasSub (cs "remind") t then
        .ret (some ⟨cs "reminder", cs "reminder",
          [(cs "minutes", .n minutes), (cs "message", .s m)]⟩)
      else
        .ret (some ⟨cs "reminder", cs "timer", [(cs "minutes", .n minutes)]⟩)
    | none =>
      .ret (some ⟨cs "reminder", cs "timer", [(cs "minutes", .n minutes)]⟩)
  else .pass

/-- `ToolRouter._keyword_route`: lowercase the utterance, then run the
keyword blocks in their source order. -/
def keywordRoute (u : List Char) : Option Classification :=
  let t := pyLower u
  runKw [timeKw t, dateKw t, batteryKw t, visionOcrKw u t, visionScreenKw u t,
    visionWebcamKw u t, codeKw u t, weatherKw u t, eventsKw u t, searchKw u t,
    whatsappKw t, openAppKw t, closeAppKw t, volumeKw t, brightnessKw t,
    screenshotKw t, lockKw t, timerKw t]

/-- The classification phase of `ToolRouter.route`: Stage 1 first; only when
it yields no classification is the Stage-2 collaborator (`classify`, modelled
as an oracle) consulted.  The second component counts Stage-2 calls. -/
def routeClassification (stage2 : List Char → Classification)
    (u : List Char) : Classification × ℕ :=
  match keywordRoute u with
  | some c => (c, 0)
  | none => (stage2 u, 1)

/-- The `level` parameter of a classification, when present. -/
def Classification.level (c : Classification) : Option ℕ :=
  match c.params.lookup (cs "level") with
  | some (.n k) => some k
  | _ => none

/-! ### Stage-2 response handling (`ToolRouter.classify`)

`classify` receives the collaborator response text (the `response` field of
the HTTP reply), strips markdown fences, locates the first opening brace,
scans forward counting brace depth, and attempts `json.loads` on each
candidate prefix; any failure degrades to the `tool: none` dict.  The JSON
values produced by `json.loads` are modelled by `Json`; `json.loads` itself
is a recursive-descent parser of the JSON grammar below (the CPython
`NaN`/`Infinity` extension and astral escape pairs are not modelled; no
input in this development exercises them).  Python exceptions are modelled
with `Except`: the `except` arms of `classify` turn any error into the
fallback dict. -/

inductive Json
  | null
  | bool (b : Bool)
  | num (q : ℚ)
  | str (s : List Char)
  | arr (xs : List Json)
  | obj (kvs : List (List Char × Json))

/-- JSON whitespace accepted by `json.loads` between tokens. -/
def jsonWsChar (c : Char) : Bool := c = ' ' || c = '\t' || c = '\n' || c = '\r'

/-- Value of one hexadecimal digit. -/
def hexVal (c : Char) : Option ℕ :=
  if c.isDigit then some (c.toNat - 48)
  else if 'a' ≤ c.toLower && c.toLower ≤ 'f' then some (c.toLower.toNat - 87)
  else none

/-- One-character string escapes of JSON. -/
def jsonEsc (c : Char) : Option Char :=
  if c = '\"' then some '\"'
  else if c = '\\' then some '\\'
  else if c = '/' then some '/'
  else if c = 'b' then some '\x08'
  else if c = 'f' then some '\x0c'
  else if c = 'n' then some '\n'
  else if c = 'r' then some '\r'
  else if c = 't' then some '\t'
  else none

/-- JSON string body parser (the opening quote already consumed): returns
the decoded characters and the input after the closing quote.  Raw control
characters are rejected, as in strict-mode `json.loads`. -/
def parseJStr : List Char → Option (List Char × List Char)
  | [] => none
  | c :: r =>
    if c = '\"' then some ([], r)
    else if c = '\\' then
      match r with
      | [] => none
      | e :: r2 =>
        if e = 'u' then
          match r2 with
          | h1 :: h2 :: h3 :: h4 :: r3 =>
            match hexVal h1, hexVal h2, hexVal h3, hexVal h4 with
            | some a, some b, some c4, some d =>
              (parseJStr r3).map (fun p => (Char.ofNat (((a * 16 + b) * 16 + c4) * 16 + d) :: p.1, p.2))
            | _, _, _, _ => none
          | _ => none
        else
          match jsonEsc e with
          | some ec => (parseJStr r2).map (fun p => (ec :: p.1, p.2))
          | none => none
    else if c.toNat < 32 then none
    else (parseJStr r).map (fun p => (c :: p.1, p.2))


/-- JSON number parser following the grammar
`-? (0 | [1-9][0-9]*) (. [0-9]+)? ([eE] [+-]? [0-9]+)?`, with the value
represented exactly as a rational. -/
def parseJNum (s : List Char) : Option (ℚ × List Char) :=
  let (sgn, s1) : ℤ × List Char := match s with
    | '-' :: r => (-1, r)
    | _ => (1, s)
  match s1 with
  | [] => none
  | c :: r =>
    if !c.isDigit then none
    else
      let (ip, rest) : List Char × List Char :=
        if c = '0' then ([c], r)
        else (c :: r.takeWhile Char.isDigit, r.dropWhile Char.isDigit)
      let (fp, rest2) : List Char × List Char :=
        match rest with
        | '.' :: r2 => (r2.takeWhile Char.isDigit, r2.dropWhile Char.isDigit)
        | _ => ([], rest)
      let hadDot : Bool := match rest with
        | '.' :: _ => true
        | _ => false
      if hadDot && fp.isEmpty then none
      else
        let expPart : Option (ℤ × List Char) :=
          match rest2 with
          | e :: r3 =>
            if e = 'e' || e = 'E' then
              let (esgn, r4) : ℤ × List Char := match r3 with
                | '+' :: r5 => (1, r5)
                | '-' :: r5 => (-1, r5)
                | _ => (1, r3)
              let ds := r4.takeWhile Char.isDigit
              if ds.isEmpty then none
              else some (esgn * (natOfDigits ds : ℤ), r4.dropWhile Char.isDigit)
            else none
          | [] => none
        let ev : ℤ := (expPart.map Prod.fst).getD 0
        let rest3 : List Char :=
          match expPart with
          | some p => p.2
          | none => rest2
        let mantissa : ℤ := sgn * (natOfDigits (ip ++ fp) : ℤ)
        some ((mantissa : ℚ) * (10 : ℚ) ^ (ev - (fp.length : ℤ)), rest3)

mutual

/-- JSON value parser (fuel-indexed recursive descent): returns the value
and the unconsumed input. -/
def parseJVal : ℕ → List Char → Option (Json × List Char)
  | 0, _ => none
  | fuel + 1, s =>
    match s.dropWhile jsonWsChar with
    | [] => none
    | c :: r =>
      if c = '\x7b' then
        match r.dropWhile jsonWsChar with
        | '\x7d' :: r2 => some (.obj [], r2)
        | _ =>
          match parseJMembers fuel r with
          | some (kvs, rest) => some (.obj kvs, rest)
          | none => none
      else if c = '[' then
        match r.dropWhile jsonWsChar with
        | ']' :: r2 => some (.arr [], r2)
        | _ =>
          match parseJItems fuel r with
          | some (xs, rest) => some (.arr xs, rest)
          | none => none
      else if c = '\"' then
        match parseJStr r with
        | some (t, rest) => some (.str t, rest)
        | none => none
      else if (cs "true").isPrefixOf (c :: r) then some (.bool true, (c :: r).drop 4)
      else if (cs "false").isPrefixOf (c :: r) then some (.bool false, (c :: r).drop 5)
      else if (cs "null").isPrefixOf (c :: r) then some (.null, (c :: r).drop 4)
      else
        match parseJNum (c :: r) with
        | some (q, rest) => some (.num q, rest)
        | none => none

/-- Members of a non-empty JSON object (input begins after the opening
brace): `"key" : value` pairs separated by commas, ending at the closing
brace. -/
def parseJMembers : ℕ → List Char → Option (List (List Char × Json) × List Char)
  | 0, _ => none
  | fuel + 1, s =>
    match s.dropWhile jsonWsChar with
    | '\"' :: r =>
      match parseJStr r with
      | some (key, rest) =>
        match rest.dropWhile jsonWsChar with
        | ':' :: r2 =>
          match parseJVal fuel r2 with
          | some (v, rest2) =>
            match rest2.dropWhile jsonWsChar with
            | ',' :: r3 =>
              match parseJMembers fuel r3 with
              | some (kvs, rest3) => some ((key, v) :: kvs, rest3)
              | none => none
            | '\x7d' :: r3 => some ([(key, v)], r3)
            | _ => none
          | none => none
        | _ => none
      | none => none
    | _ => none

/-- Items of a non-empty JSON array (input begins after the opening
bracket). -/
def parseJItems : ℕ → List Char → Option (List Json × List Char)
  | 0, _ => none
  | fuel + 1, s =>
    match parseJVal fuel s with
    | some (v, rest) =>
      match rest.dropWhile jsonWsChar with
      | ',' :: r2 =>
        match parseJItems fuel r2 with
        | some (xs, rest2) => some (v :: xs, rest2)
        | none => none
      | ']' :: r2 => some ([v], r2)
      | _ => none
    | none => none

end

/-- Python `json.loads`: a parse succeeds only if nothing but whitespace
remains after one JSON value.  The fuel `s.length + 1` dominates the nesting
depth of any input. -/
def jsonLoads (s : List Char) : Option Json :=
  match parseJVal (s.length + 1) s with
  | some (v, rest) => if (rest.dropWhile jsonWsChar).isEmpty then some v else none
  | none => none

/-- Fuel-indexed worker for `splitAll`; the fuel (the input length at the
top call) dominates the number of steps. -/
def splitAllGo (sep : List Char) : ℕ → List Char → List (List Char)
  | 0, s => [s]
  | _ + 1, [] => [[]]
  | fuel + 1, c :: r =>
    if sep ≠ [] ∧ sep.isPrefixOf (c :: r) then
      [] :: splitAllGo sep fuel ((c :: r).drop sep.length)
    else
      match splitAllGo sep fuel r with
      | [] => [[c]]
      | p :: ps => (c :: p) :: ps

/-- Python `s.split(sep)` for a non-empty separator. -/
def splitAll (sep : List Char) (s : List Char) : List (List Char) :=
  splitAllGo sep s.length s

/-- `raw[start:]` for `start = raw.find("\x7b")`, or `none` when no opening
brace occurs (`start < 0` in the source). -/
def dropToBrace : List Char → Option (List Char)
  | [] => none
  | c :: r => if c = '\x7b' then some (c :: r) else dropToBrace r

/-- The Python dict `\x7b"tool": "none"\x7d`, the conversation-fallback
classification. -/
def toolNoneJson : Json := .obj [(cs "tool", .str (cs "none"))]

/-- The brace-depth scan of `classify`: walk `json_str`, incrementing depth
at every opening brace and decrementing at every closing one; whenever depth
returns to zero, try `json.loads` on the prefix up to this character,
breaking on success and scanning on after a decode failure. -/
def scanGo (jsonStr : List Char) : List Char → ℕ → ℤ → Option Json
  | [], _, _ => none
  | c :: rest, i, depth =>
    if c = '\x7b' then scanGo jsonStr rest (i + 1) (depth + 1)
    else if c = '\x7d' then
      if depth - 1 = 0 then
        match jsonLoads (jsonStr.take (i + 1)) with
        | some v => some v
        | none => scanGo jsonStr rest (i + 1) (depth - 1)
      else scanGo jsonStr rest (i + 1) (depth - 1)
    else scanGo jsonStr rest (i + 1) depth

/-- The brace-locating phase of `classify`: find the first opening brace
(`tool: none` when absent), then run the depth scan; `json.loads` failures
inside the scan are already consumed by the inner `try/except continue`. -/
def classifyAfterFence (raw : List Char) : Except (List Char) Json :=
  match dropToBrace raw with
  | none => .ok toolNoneJson
  | some jsonStr =>
    match scanGo jsonStr jsonStr 0 0 with
    | some v => .ok v
    | none => .ok toolNoneJson

/-- The fence-stripping phase of `classify` feeding the brace scan: when a
markdown fence is present, take `raw.split("```")[1]` (the `[1]` index is
the one operation that could raise, modelled as the `Except` error case),
drop a leading `json` tag, and strip. -/
def classifyBody (raw0 : List Char) : Except (List Char) Json :=
  let raw1 := pyStrip raw0
  if hasSub (cs "```") raw1 then
    match (splitAll (cs "```") raw1).get? 1 with
    | none => .error (cs "IndexError")
    | some part =>
      classifyAfterFence (pyStrip (if (cs "json").isPrefixOf part then part.drop 4 else part))
  else classifyAfterFence raw1

/-- `ToolRouter.classify` on a given collaborator response text: the outer
`except` arms turn any raised exception into the `tool: none` fallback. -/
def classifyFromRaw (raw : List Char) : Json :=
  match classifyBody raw with
  | .ok v => v
  | .error _ => toolNoneJson

/-! ### High-pass filtering (`AudioCapture._highpass_filter`)

The float64 arithmetic of the filter is modelled over an arbitrary linear
ordered field (instantiated at `ℝ` in the theorems); int16 conversion after
`np.clip` truncates toward zero. -/

/-- The per-sample recurrence of `_highpass_filter`:
`prev_filt = alpha * (prev_filt + x - prev_raw); prev_raw = x`, collecting
the filtered samples and returning the final `(prev_raw, prev_filt)` state. -/
def hpChunk {K : Type} [LinearOrderedField K] (alpha : K) (prevRaw prevFilt : K) :
    List K → List K × K × K
  | [] => ([], prevRaw, prevFilt)
  | x :: rest =>
    let y := alpha * (prevFilt + x - prevRaw)
    let out := hpChunk alpha x y rest
    (y :: out.1, out.2)

/-- `np.clip(y, -32768, 32767)`. -/
def clip16 {K : Type} [LinearOrderedField K] (y : K) : K :=
  max (-32768) (min 32767 y)

/-- `astype(np.int16)` on a clipped value: truncation toward zero. -/
def truncInt {K : Type} [LinearOrderedField K] [FloorRing K] (y : K) : ℤ :=
  if 0 ≤ y then ⌊y⌋ else -⌊-y⌋

/-- `_highpass_filter` on one chunk: filter, clip, convert to int16;
returns the output samples and the saved filter state. -/
def highpassFilter {K : Type} [LinearOrderedField K] [FloorRing K]
    (alpha prevRaw prevFilt : K) (xs : List K) : List ℤ × K × K :=
  let out := hpChunk alpha prevRaw prevFilt xs
  (out.1.map (fun y => truncInt (clip16 y)), out.2)

/-- `rc = 1.0 / (2.0 * np.pi * cutoff_hz)` with `cutoff_hz = 85.0`. -/
noncomputable def hpRC : ℝ := 1 / (2 * Real.pi * 85)

/-- `dt = 1.0 / self.sample_rate` at the configured 16 kHz. -/
noncomputable def hpDt : ℝ := 1 / 16000

/-- `self.hp_alpha = rc / (rc + dt)`. -/
noncomputable def hpAlpha : ℝ := hpRC / (hpRC + hpDt)

/-! ## Theorems -/

attribute [local irreducible] extractAppName closeAppName

/-- On an unbounded queue (`maxsize = 0`, the source's `queue.Queue()`),
a run of audio callbacks never blocks and appends every chunk in order. -/
theorem audioCallbacks_unbounded {α : Type} (chunks : List α) :
    ∀ items : List α,
      audioCallbacks (⟨0, items⟩ : PyQueue α) chunks = some ⟨0, items ++ chunks⟩ := by
  induction chunks with
  | nil => intro items; simp [audioCallbacks]
  | cons c rest ih =>
    intro items
    have hstep : audioCallback (⟨0, items⟩ : PyQueue α) c = some ⟨0, items ++ [c]⟩ := by
      simp [audioCallback, PyQueue.put, PyQueue.isFull]
    simp only [audioCallbacks, List.foldlM_cons, hstep, Option.bind_some]
    simpa [audioCallbacks] using ih (items ++ [c])

/-- C1, counterexample.  The claim asserts the capture queue is bounded —
that a bound exists within which the queue length stays after every callback
sequence, maintained by dropping the oldest chunk when full.  The source
constructs `queue.Queue()` with no bound and `_audio_callback` only ever
appends, so no such bound exists: for any candidate bound `B`, a run of
`B + 1` callbacks (with no consumer scheduled) leaves `B + 1` chunks queued. -/
theorem claim_C1_counterexample :
    ¬ ∃ B : ℕ, 0 < B ∧ ∀ (chunks : List ℕ) (q : PyQueue ℕ),
      audioCallbacks (audioQueueInit ℕ) chunks = some q → q.items.length ≤ B := by
  rintro ⟨B, -, h⟩
  have hrun := audioCallbacks_unbounded (List.replicate (B + 1) 0) ([] : List ℕ)
  have hlen := h (List.replicate (B + 1) 0) ⟨0, [] ++ List.replicate (B + 1) 0⟩
    (by simpa [audioQueueInit] using hrun)
  simp at hlen

/-- C1, amended.  What does hold of `_audio_callback`: the producer never
blocks, because the queue is unbounded (`maxsize = 0`); every callback
appends the new chunk, no queued chunk is ever dropped (oldest included),
and after `n` callbacks with no consumer the queue holds exactly those `n`
chunks in production order — the length is not bounded. -/
theorem claim_C1_amended :
    (∀ (q : PyQueue ℕ) (c : ℕ), q.maxsize = 0 →
      audioCallback q c = some ⟨0, q.items ++ [c]⟩) ∧
    (∀ chunks : List ℕ,
      audioCallbacks (audioQueueInit ℕ) chunks = some ⟨0, chunks⟩) := by
  constructor
  · intro q c hq
    cases q with
    | mk ms items =>
      cases hq
      simp [audioCallback, PyQueue.put, PyQueue.isFull]
  · intro chunks
    simpa [audioQueueInit] using audioCallbacks_unbounded chunks ([] : List ℕ)

/-- C1, witness for the amended theorem at a concrete queue state and chunk. -/
theorem claim_C1_witness :
    audioCallback (⟨0, [7, 8]⟩ : PyQueue ℕ) 9 = some ⟨0, [7, 8, 9]⟩ :=
  claim_C1_amended.1 ⟨0, [7, 8]⟩ 9 rfl

/-- On a steady stream (consecutive chunk arrivals at most `dt` apart) that
eventually passes the cap, the `record_speech` loop returns within the
stream, no later than `max_recording_seconds + dt` — whatever the energies
and whatever state it is in. -/
theorem recordLoop_return_bounded (cfg : RecCfg) (dt : ℚ)
    (hmax : 0 ≤ cfg.maxRec) (hdt : 0 ≤ dt) :
    ∀ (chunks : List (ℚ × ℚ)) (st : RecSt) (tprev : ℚ),
      steady dt tprev chunks = true → tprev ≤ cfg.maxRec →
      (∃ p ∈ chunks, cfg.maxRec < p.1) →
      (recordLoop cfg chunks st).result.isReturn = true ∧
      (recordLoop cfg chunks st).retTime ≤ cfg.maxRec + dt := by
  intro chunks
  induction chunks with
  | nil =>
    intro st tprev _ _ hex
    simp at hex
  | cons p rest ih =>
    obtain ⟨t, e⟩ := p
    intro st tprev hsteady hprev hex
    simp only [steady, Bool.and_eq_true, decide_eq_true_eq] at hsteady
    obtain ⟨hle, hrest⟩ := hsteady
    by_cases hcap : cfg.maxRec < t
    · simp only [recordLoop, if_pos hcap]
      refine ⟨?_, by linarith⟩
      split <;> simp [RecResult.isReturn]
    · have ht : t ≤ cfg.maxRec := le_of_not_lt hcap
      have hex2 : ∃ p ∈ rest, cfg.maxRec < p.1 := by
        obtain ⟨q, hq, hqgt⟩ := hex
        rcases List.mem_cons.mp hq with hq1 | hq2
        · exact absurd hqgt (by rw [hq1]; exact not_lt.mpr ht)
        · exact ⟨q, hq2, hqgt⟩
      simp only [recordLoop, if_neg hcap]
      split_ifs with h1 h2 h3 h4 h5
      · exact ih _ t hrest ht hex2
      · exact ⟨rfl, by linarith⟩
      · exact ih _ t hrest ht hex2
      · exact ih _ t hrest ht hex2
      · exact ⟨rfl, by linarith⟩
      · exact ih _ t hrest ht hex2

/-- C2: on any steady chunk stream (arrival gaps at most one chunk interval
`dt`) that lasts past the cap, `record_speech` terminates and returns no
later than `max_recording_seconds + dt` after its start, regardless of the
chunk energies. -/
theorem claim_C2 (cfg : RecCfg) (dt : ℚ) (chunks : List (ℚ × ℚ))
    (hmax : 0 ≤ cfg.maxRec) (hdt : 0 ≤ dt)
    (hsteady : steady dt 0 chunks = true)
    (hlong : ∃ p ∈ chunks, cfg.maxRec < p.1) :
    (recordSpeech cfg chunks).result.isReturn = true ∧
    (recordSpeech cfg chunks).retTime ≤ cfg.maxRec + dt :=
  recordLoop_return_bounded cfg dt hmax hdt chunks _ 0 hsteady hmax hlong

/-- C2, witness: the shipped configuration on the idealized live stream
(one all-silent chunk every 80 ms for 101 chunks) satisfies the hypotheses,
so the recorder returns by 8 + 0.08 seconds. -/
theorem claim_C2_witness :
    (0 ≤ jarvisRecCfg.maxRec ∧ (0 : ℚ) ≤ mkRat 2 25 ∧
      steady (mkRat 2 25) 0 (streamChunks (mkRat 2 25) 101 (fun _ => 0)) = true ∧
      (∃ p ∈ streamChunks (mkRat 2 25) 101 (fun _ => 0), jarvisRecCfg.maxRec < p.1)) ∧
    (recordSpeech jarvisRecCfg (streamChunks (mkRat 2 25) 101 (fun _ => 0))).result.isReturn = true ∧
    (recordSpeech jarvisRecCfg (streamChunks (mkRat 2 25) 101 (fun _ => 0))).retTime ≤
      jarvisRecCfg.maxRec + mkRat 2 25 :=
  ⟨⟨by decide, by decide, by decide, by decide⟩,
    claim_C2 jarvisRecCfg (mkRat 2 25) _ (by decide) (by decide) (by decide) (by decide)⟩

set_option maxRecDepth 4000 in
/-- C3, counterexample.  The claim says an all-silent stream (no chunk RMS
above the silence threshold within the 8-second grace period) makes
`record_speech` return the distinguished no-speech `None`.  On the shipped
configuration (`max_recording_seconds = 8`) the cap check `elapsed >
max_recording_seconds` sits before the grace check `elapsed > 8.0` and both
fire at the same instant, so on the idealized live stream (one silent chunk
every 80 ms) the loop `break`s at the cap and returns the collected silent
buffer of 100 chunks — a recorded utterance, not `None`. -/
theorem claim_C3_counterexample :
    (∀ p ∈ streamChunks (mkRat 2 25) 101 (fun _ => 0), p.2 ≤ jarvisRecCfg.thresh) ∧
    (recordSpeech jarvisRecCfg (streamChunks (mkRat 2 25) 101 (fun _ => 0))).result =
      .captured .cap 100 0 := by
  constructor
  · decide
  · decide

/-- C3, amended.  The no-speech grace abort exists in the code but is
unreachable whenever `max_recording_seconds ≤ 8` (as in the shipped
configuration, where it equals 8): every chunk that reaches the grace check
has `elapsed ≤ max_recording_seconds ≤ 8`, so `elapsed > 8.0` is false.  An
all-silent stream therefore ends at the hard cap with the silent buffer (or
`None` only as the empty-buffer "no audio" result); the `return None` for
"no speech detected after 8 seconds" can fire only if
`max_recording_seconds > 8`. -/
theorem claim_C3_amended (cfg : RecCfg) (hmax : cfg.maxRec ≤ 8) :
    ∀ (chunks : List (ℚ × ℚ)) (st : RecSt),
      (recordLoop cfg chunks st).result ≠ .noSpeech := by
  intro chunks
  induction chunks with
  | nil => intro st; simp [recordLoop]
  | cons p rest ih =>
    obtain ⟨t, e⟩ := p
    intro st
    by_cases hcap : cfg.maxRec < t
    · simp only [recordLoop, if_pos hcap]
      split <;> simp
    · simp only [recordLoop, if_neg hcap]
      split_ifs with h1 h2 h3 h4 h5
      · exact ih _
      · exact absurd h3 (not_lt.mpr (le_trans (le_of_not_lt hcap) hmax))
      · exact ih _
      · exact ih _
      · simp
      · exact ih _

/-- C3, witness for the amended theorem: the shipped configuration on the
all-silent idealized live stream never yields the no-speech result. -/
theorem claim_C3_witness :
    jarvisRecCfg.maxRec ≤ 8 ∧
    (recordLoop jarvisRecCfg (streamChunks (mkRat 2 25) 101 (fun _ => 0))
        ⟨false, 0, none, 0⟩).result ≠ .noSpeech :=
  ⟨by decide,
    claim_C3_amended jarvisRecCfg (by decide) (streamChunks (mkRat 2 25) 101 (fun _ => 0))
      ⟨false, 0, none, 0⟩⟩

set_option maxRecDepth 4000 in
/-- C4, counterexample.  The claim says that once speech is detected the
recorder never returns before `min_recording_seconds` of detected speech
has elapsed.  On the shipped configuration and the idealized live stream,
let speech start on the chunk arriving at t = 8.0 s (RMS 100 > threshold 30,
so speech is detected): the very next chunk (t = 8.08 s) trips the hard cap
and the recorder returns the recorded buffer with only 0.08 s < 2.0 s of
detected speech. -/
theorem claim_C4_counterexample :
    (∃ p ∈ streamChunks (mkRat 2 25) 101 (fun k => if k = 99 then 100 else 0),
      jarvisRecCfg.thresh < p.2) ∧
    (recordSpeech jarvisRecCfg
        (streamChunks (mkRat 2 25) 101 (fun k => if k = 99 then 100 else 0))).result =
      .captured .cap 100 (mkRat 2 25) ∧
    mkRat 2 25 < jarvisRecCfg.minRec := by
  refine ⟨by decide, by decide, by decide⟩

/-- C4, amended.  The dual stop condition itself does respect the minimum:
whenever `record_speech` returns through the silence-stop branch, the
detected speech time at the stop is at least `min_recording_seconds`.  Only
the hard cap (`max_recording_seconds`) can end a recording with less
detected speech, as the counterexample shows. -/
theorem claim_C4_amended (cfg : RecCfg) :
    ∀ (chunks : List (ℚ × ℚ)) (st : RecSt) (n : ℕ) (se : ℚ),
      (recordLoop cfg chunks st).result = .captured .silence n se →
      cfg.minRec ≤ se := by
  intro chunks
  induction chunks with
  | nil => intro st n se h; simp [recordLoop] at h
  | cons p rest ih =>
    obtain ⟨t, e⟩ := p
    intro st n se h
    by_cases hcap : cfg.maxRec < t
    · simp only [recordLoop, if_pos hcap] at h
      split at h <;> simp_all
    · simp only [recordLoop, if_neg hcap] at h
      split_ifs at h <;> first | exact ih _ _ _ h | simp_all

set_option maxRecDepth 4000 in
/-- C4, witness for the amended theorem: speech on the first chunk
(t = 0.08 s) followed by silence stops through the silence-stop branch at
t = 2.16 s with 2.08 s ≥ 2.0 s of detected speech. -/
theorem claim_C4_witness :
    (recordLoop jarvisRecCfg
        (streamChunks (mkRat 2 25) 27 (fun k => if k = 0 then 100 else 0))
        ⟨false, 0, none, 0⟩).result = .captured .silence 27 (mkRat 52 25) ∧
    jarvisRecCfg.minRec ≤ mkRat 52 25 :=
  ⟨by decide,
    claim_C4_amended jarvisRecCfg
      (streamChunks (mkRat 2 25) 27 (fun k => if k = 0 then 100 else 0))
      ⟨false, 0, none, 0⟩ 27 (mkRat 52 25) (by decide)⟩

/-- C5: `route` consults the Stage-1 keyword classifier first, and whenever
Stage 1 yields a classification the Stage-2 collaborator is never called —
the outcome is the same under any Stage-2 oracle, with a Stage-2 call count
of zero.  In particular "what time is it" classifies at Stage 1 to the
`system_info` / `time` action with zero collaborator calls. -/
theorem claim_C5 :
    (∀ (u : List Char) (o1 o2 : List Char → Classification),
      (keywordRoute u).isSome = true →
      routeClassification o1 u = routeClassification o2 u ∧
      (routeClassification o1 u).2 = 0) ∧
    (∀ o : List Char → Classification,
      routeClassification o (cs "what time is it") =
        (⟨cs "system_info", cs "time", []⟩, 0)) := by
  constructor
  · intro u o1 o2 hsome
    unfold routeClassification
    cases hkw : keywordRoute u with
    | none => rw [hkw] at hsome; simp at hsome
    | some c => simp
  · intro o
    unfold routeClassification
    have hkw : keywordRoute (cs "what time is it") =
        some ⟨cs "system_info", cs "time", []⟩ := by decide
    rw [hkw]

/-- C5, witness: the hypothesis of the universal part holds at
"what time is it", and two arbitrarily different Stage-2 oracles give the
same routing outcome there with zero Stage-2 calls. -/
theorem claim_C5_witness :
    (keywordRoute (cs "what time is it")).isSome = true ∧
    routeClassification (fun _ => ⟨cs "a", cs "b", []⟩) (cs "what time is it") =
      routeClassification (fun _ => ⟨cs "c", cs "d", []⟩) (cs "what time is it") ∧
    (routeClassification (fun _ => ⟨cs "a", cs "b", []⟩) (cs "what time is it")).2 = 0 :=
  ⟨by decide,
    claim_C5.1 (cs "what time is it") (fun _ => ⟨cs "a", cs "b", []⟩)
      (fun _ => ⟨cs "c", cs "d", []⟩) (by decide)⟩

/-- A step that never returns a `level` parameter trivially keeps any
returned `level` within 100. -/
theorem kwstep_level_of_none (s : KwStep)
    (hnone : ∀ c : Classification, s = .ret (some c) → c.level = none) :
    ∀ (c : Classification) (k : ℕ), s = .ret (some c) → c.level = some k → k ≤ 100 := by
  intro c k h hl
  rw [hnone c h] at hl
  exact Option.noConfusion hl

/-- The time block carries no `level` parameter. -/
theorem timeKw_level (t : List Char) :
    ∀ c : Classification, timeKw t = .ret (some c) → c.level = none := by
  intro c h
  unfold timeKw at h
  repeat' split at h
  all_goals simp at h
  all_goals (subst h; rfl)

/-- The date block carries no `level` parameter. -/
theorem dateKw_level (t : List Char) :
    ∀ c : Classification, dateKw t = .ret (some c) → c.level = none := by
  intro c h
  unfold dateKw at h
  repeat' split at h
  all_goals simp at h
  all_goals (subst h; rfl)

/-- The battery block carries no `level` parameter. -/
theorem batteryKw_level (t : List Char) :
    ∀ c : Classification, batteryKw t = .ret (some c) → c.level = none := by
  intro c h
  unfold batteryKw at h
  repeat' split at h
  all_goals simp at h
  all_goals (subst h; rfl)

/-- The vision OCR block carries no `level` parameter. -/
theorem visionOcrKw_level (u t : List Char) :
    ∀ c : Classification, visionOcrKw u t = .ret (some c) → c.level = none := by
  intro c h
  unfold visionOcrKw at h
  repeat' split at h
  all_goals simp at h
  all_goals (subst h; rfl)

/-- The vision describe-screen block carries no `level` parameter. -/
theorem visionScreenKw_level (u t : List Char) :
    ∀ c : Classification, visionScreenKw u t = .ret (some c) → c.level = none := by
  intro c h
  unfold visionScreenKw at h
  repeat' split at h
  all_goals simp at h
  all_goals (subst h; rfl)

/-- The vision webcam block carries no `level` parameter. -/
theorem visionWebcamKw_level (u t : List Char) :
    ∀ c : Classification, visionWebcamKw u t = .ret (some c) → c.level = none := by
  intro c h
  unfold visionWebcamKw at h
  repeat' split at h
  all_goals simp at h
  all_goals (subst h; rfl)

/-- The code-execution block carries no `level` parameter. -/
theorem codeKw_level (u t : List Char) :
    ∀ c : Classification, codeKw u t = .ret (some c) → c.level = none := by
  intro c h
  unfold codeKw at h
  repeat' split at h
  all_goals simp at h
  all_goals (subst h; rfl)

/-- The weather block carries no `level` parameter. -/
theorem weatherKw_level (u t : List Char) :
    ∀ c : Classification, weatherKw u t = .ret (some c) → c.level = none := by
  intro c h
  unfold weatherKw at h
  repeat' split at h
  all_goals simp at h
  all_goals (subst h; rfl)

/-- The current-events block carries no `level` parameter. -/
theorem eventsKw_level (u t : List Char) :
    ∀ c : Classification, eventsKw u t = .ret (some c) → c.level = none := by
  intro c h
  unfold eventsKw at h
  repeat' split at h
  all_goals simp at h
  all_goals (subst h; rfl)

/-- The search-intent block carries no `level` parameter. -/
theorem searchKw_level (u t : List Char) :
    ∀ c : Classification, searchKw u t = .ret (some c) → c.level = none := by
  intro c h
  unfold searchKw at h
  repeat' split at h
  all_goals simp at h
  all_goals (subst h; rfl)

/-- The WhatsApp block never returns a classification at all. -/
theorem whatsappKw_level (t : List Char) :
    ∀ c : Classification, whatsappKw t = .ret (some c) → c.level = none := by
  intro c h
  unfold whatsappKw at h
  repeat' split at h
  all_goals simp at h

/-- The app-launch block carries no `level` parameter. -/
theorem openAppKw_level (t : List Char) :
    ∀ c : Classification, openAppKw t = .ret (some c) → c.level = none := by
  intro c h
  unfold openAppKw at h
  split_ifs at h
  injection h with h1
  injection h1 with h2
  subst h2
  rfl

/-- The close-app block carries no `level` parameter. -/
theorem closeAppKw_level (t : List Char) :
    ∀ c : Classification, closeAppKw t = .ret (some c) → c.level = none := by
  intro c h
  unfold closeAppKw at h
  split_ifs at h
  injection h with h1
  injection h1 with h2
  subst h2
  rfl

/-- The brightness block carries no `level` parameter. -/
theorem brightnessKw_level (t : List Char) :
    ∀ c : Classification, brightnessKw t = .ret (some c) → c.level = none := by
  intro c h
  unfold brightnessKw at h
  repeat' split at h
  all_goals simp at h
  all_goals (subst h; rfl)

/-- The screenshot block carries no `level` parameter. -/
theorem screenshotKw_level (t : List Char) :
    ∀ c : Classification, screenshotKw t = .ret (some c) → c.level = none := by
  intro c h
  unfold screenshotKw at h
  repeat' split at h
  all_goals simp at h
  all_goals (subst h; rfl)

/-- The lock-screen block carries no `level` parameter. -/
theorem lockKw_level (t : List Char) :
    ∀ c : Classification, lockKw t = .ret (some c) → c.level = none := by
  intro c h
  unfold lockKw at h
  repeat' split at h
  all_goals simp at h
  all_goals (subst h; rfl)

/-- The timer/reminder block carries no `level` parameter. -/
theorem timerKw_level (t : List Char) :
    ∀ c : Classification, timerKw t = .ret (some c) → c.level = none := by
  intro c h
  unfold timerKw at h
  split_ifs at h
  all_goals
    cases hmsg : firstMsg t [cs "to ", cs "that ", cs "about "] with
    | none =>
      rw [hmsg] at h
      simp at h
      subst h
      rfl
    | some m =>
      rw [hmsg] at h
      simp at h
      subst h
      rfl

/-- Every `level` parameter the volume block can produce is at most 100:
the unmute path fixes 50, the max path fixes 100, and the numeric path is
capped with `min(int(numbers[0]), 100)`. -/
theorem volumeKw_level (t : List Char) :
    ∀ (c : Classification) (k : ℕ), volumeKw t = .ret (some c) → c.level = some k → k ≤ 100 := by
  intro c k h hl
  unfold volumeKw at h
  repeat' split at h
  all_goals simp at h
  all_goals subst h
  all_goals first
    | exact Option.noConfusion hl
    | (injection hl with hk; omega)
    | (injection hl with hk; subst hk; exact Nat.min_le_right _ _)

/-- Any classification produced by `runKw` over steps whose returned
`level` parameters stay within 100 also stays within 100. -/
theorem runKw_level (steps : List KwStep)
    (hs : ∀ s ∈ steps, ∀ (c : Classification) (k : ℕ),
      s = .ret (some c) → c.level = some k → k ≤ 100) :
    ∀ (c : Classification) (k : ℕ), runKw steps = some c → c.level = some k → k ≤ 100 := by
  induction steps with
  | nil => intro c k h; simp [runKw] at h
  | cons s rest ih =>
    intro c k h hl
    cases s with
    | pass =>
      exact ih (fun s2 hmem => hs s2 (List.mem_cons_of_mem _ hmem)) c k
        (by simpa [runKw] using h) hl
    | ret r =>
      have hr : r = some c := by simpa [runKw] using h
      exact hs _ (List.mem_cons_self _ _) c k (by rw [hr]) hl

/-- C10: whenever Stage-1 keyword routing returns a classification with a
`level` parameter (the `volume_set` paths), that level is at most 100, even
when the utterance contains a larger number. -/
theorem claim_C10 :
    ∀ (u : List Char) (c : Classification) (k : ℕ),
      keywordRoute u = some c → c.level = some k → k ≤ 100 := by
  intro u c k hroute hl
  simp only [keywordRoute] at hroute
  refine runKw_level _ ?_ c k hroute hl
  intro s hmem
  simp only [List.mem_cons, List.not_mem_nil, or_false] at hmem
  rcases hmem with rfl | rfl | rfl | rfl | rfl | rfl | rfl | rfl | rfl | rfl | rfl | rfl
    | rfl | rfl | rfl | rfl | rfl | rfl
  · exact kwstep_level_of_none _ (timeKw_level _)
  · exact kwstep_level_of_none _ (dateKw_level _)
  · exact kwstep_level_of_none _ (batteryKw_level _)
  · exact kwstep_level_of_none _ (visionOcrKw_level _ _)
  · exact kwstep_level_of_none _ (visionScreenKw_level _ _)
  · exact kwstep_level_of_none _ (visionWebcamKw_level _ _)
  · exact kwstep_level_of_none _ (codeKw_level _ _)
  · exact kwstep_level_of_none _ (weatherKw_level _ _)
  · exact kwstep_level_of_none _ (eventsKw_level _ _)
  · exact kwstep_level_of_none _ (searchKw_level _ _)
  · exact kwstep_level_of_none _ (whatsappKw_level _)
  · exact kwstep_level_of_none _ (openAppKw_level _)
  · exact kwstep_level_of_none _ (closeAppKw_level _)
  · exact volumeKw_level _
  · exact kwstep_level_of_none _ (brightnessKw_level _)
  · exact kwstep_level_of_none _ (screenshotKw_level _)
  · exact kwstep_level_of_none _ (lockKw_level _)
  · exact kwstep_level_of_none _ (timerKw_level _)

/-- C10, witness: "set volume to 150" routes through the numeric path and
comes back capped at level 100. -/
theorem claim_C10_witness :
    keywordRoute (cs "set volume to 150") =
      some ⟨cs "mac_control", cs "volume_set", [(cs "level", PVal.n 100)]⟩ ∧
    (100 : ℕ) ≤ 100 :=
  ⟨by decide,
    claim_C10 (cs "set volume to 150")
      ⟨cs "mac_control", cs "volume_set", [(cs "level", PVal.n 100)]⟩ 100
      (by decide) (by decide)⟩

/-- C7: a listening window whose average RMS is below `min_rms` and whose
peak RMS is below `peak_rms` makes `listen_and_detect` return no-trigger
without any transcription call, whatever the collaborator would have
answered. -/
theorem claim_C7 (phrases : List (List Char)) (es : List ℚ) (transcript : List Char)
    (havg : es.sum / es.length < wakeMinRms)
    (hpeak : es.foldl max 0 < wakePeakRms) :
    listenAndDetect phrases es transcript = (false, 0) := by
  unfold listenAndDetect
  simp only [if_pos havg]

set_option maxRecDepth 8000 in
/-- C7, witness: the spec scenario — a 31-chunk window with average RMS 10
and peak RMS 40 against the 15/80 thresholds — returns no-trigger with zero
transcription calls, even though the transcript oracle would have matched a
trigger phrase. -/
theorem claim_C7_witness :
    ((40 :: List.replicate 30 (9 : ℚ)).sum / (40 :: List.replicate 30 (9 : ℚ)).length
        < wakeMinRms ∧
      (40 :: List.replicate 30 (9 : ℚ)).foldl max 0 < wakePeakRms) ∧
    listenAndDetect defaultTriggerPhrases (40 :: List.replicate 30 9) (cs "hey jarvis") =
      (false, 0) :=
  ⟨⟨by decide, by decide⟩,
    claim_C7 defaultTriggerPhrases (40 :: List.replicate 30 9) (cs "hey jarvis")
      (by decide) (by decide)⟩

/-- C8: on any transcription result, the wake listener triggers exactly when
the cleaned text (lowercased, punctuation stripped) is outside the fixed
hallucination set, is at least 3 characters long, and contains some
configured trigger phrase as a substring. -/
theorem claim_C8 (phrases : List (List Char)) (txt : List Char) :
    wakeTextDecision phrases txt = true ↔
      cleanTranscript txt ∉ hallucinationSet ∧
      3 ≤ (cleanTranscript txt).length ∧
      ∃ p ∈ phrases, hasSub p (cleanTranscript txt) = true := by
  unfold wakeTextDecision
  by_cases hmem : hallucinationSet.contains (cleanTranscript txt) = true
  · simp only [if_pos hmem]
    have : cleanTranscript txt ∈ hallucinationSet := by
      simpa [List.elem_iff] using hmem
    simp [this]
  · simp only [if_neg hmem]
    have hnotmem : cleanTranscript txt ∉ hallucinationSet := by
      intro hc
      exact hmem (by simpa [List.elem_iff] using hc)
    by_cases hlen : (cleanTranscript txt).length < 3
    · simp only [if_pos hlen]
      constructor
      · intro hfalse; exact absurd hfalse (by simp)
      · rintro ⟨-, hge, -⟩; omega
    · simp only [if_neg hlen]
      have hne : (cleanTranscript txt).isEmpty = false := by
        cases hcl : cleanTranscript txt with
        | nil => rw [hcl] at hlen; simp at hlen
        | cons a l => simp
      simp [hne, hnotmem, List.any_eq_true, Nat.not_lt.mp hlen]

/-- `splitAllGo` never produces an empty list of pieces. -/
theorem splitAllGo_ne_nil (sep : List Char) :
    ∀ (fuel : ℕ) (s : List Char), splitAllGo sep fuel s ≠ [] := by
  intro fuel
  induction fuel with
  | zero => intro s; simp [splitAllGo]
  | succ n ih =>
    intro s
    cases s with
    | nil => simp [splitAllGo]
    | cons c r =>
      simp only [splitAllGo]
      split_ifs
      · simp
      · split <;> simp

/-- Python `s.split(sep)` yields at least two pieces whenever the non-empty
separator occurs in `s` (so indexing `[1]` after a guarded split is safe). -/
theorem splitAll_two_of_hasSub (sep s : List Char) (hne : sep ≠ [])
    (hsub : hasSub sep s = true) : 2 ≤ (splitAll sep s).length := by
  suffices h : ∀ (fuel : ℕ) (s : List Char), s.length ≤ fuel →
      hasSub sep s = true → 2 ≤ (splitAllGo sep fuel s).length by
    exact h s.length s le_rfl hsub
  intro fuel
  induction fuel with
  | zero =>
    intro s hlen hs
    rw [List.length_eq_zero.mp (Nat.le_zero.mp hlen)] at hs
    simp [hasSub, List.isEmpty_iff] at hs
    exact absurd hs hne
  | succ n ih =>
    intro s hlen hs
    cases s with
    | nil =>
      simp [hasSub, List.isEmpty_iff] at hs
      exact absurd hs hne
    | cons c r =>
      simp only [splitAllGo]
      split_ifs with hpre
      · have := splitAllGo_ne_nil sep n ((c :: r).drop sep.length)
        cases hgo : splitAllGo sep n ((c :: r).drop sep.length) with
        | nil => exact absurd hgo this
        | cons p ps => simp
      · have hpre2 : ¬ sep.isPrefixOf (c :: r) = true := by
          intro hp
          exact hpre ⟨hne, hp⟩
        have hsr : hasSub sep r = true := by
          simp only [hasSub, Bool.or_eq_true] at hs
          rcases hs with hs1 | hs2
          · exact absurd hs1 hpre2
          · exact hs2
        have hlen2 : r.length ≤ n := by
          simp only [List.length_cons] at hlen
          omega
        have h2 := ih r hlen2 hsr
        split
        next hemp => exact absurd hemp (splitAllGo_ne_nil sep n r)
        next p ps hps => rw [hps] at h2; simpa using h2

/-- The brace-scan phase always returns a dict (`ok`), whatever the input. -/
theorem classifyAfterFence_ok (raw : List Char) :
    ∃ j, classifyAfterFence raw = .ok j := by
  unfold classifyAfterFence
  cases hdb : dropToBrace raw with
  | none => exact ⟨toolNoneJson, rfl⟩
  | some js =>
    cases hsc : scanGo js js 0 0 with
    | none => exact ⟨toolNoneJson, by dsimp only; rw [hsc]⟩
    | some v => exact ⟨v, by dsimp only; rw [hsc]⟩

/-- C6: for every collaborator response string, `classify` returns a dict
and never lets an exception escape — the body itself never reaches the
`except` arms, because the only fallible operation (`split("```")[1]`) is
guarded by the `in` check; and on each malformed-response category the
result is the `tool: none` fallback, while a well-formed object followed by
trailing prose yields the parsed object. -/
theorem claim_C6 :
    (∀ raw : List Char, ∃ j, classifyBody raw = .ok j) ∧
    classifyFromRaw (cs "\x7b\"tool\": ") = toolNoneJson ∧
    classifyFromRaw (cs "I cannot classify this request.") = toolNoneJson ∧
    classifyFromRaw (cs "\x7bnot json\x7d") = toolNoneJson ∧
    classifyFromRaw (cs "```json\n\x7b\"tool\": \"none\"\x7d\n```") = toolNoneJson ∧
    classifyFromRaw
        (cs "\x7b\"tool\": \"web_search\", \"action\": \"search\"\x7d Sure, here it is.") =
      Json.obj [(cs "tool", Json.str (cs "web_search")),
        (cs "action", Json.str (cs "search"))] := by
  refine ⟨?_, rfl, rfl, rfl, rfl, rfl⟩
  intro raw
  unfold classifyBody
  by_cases hf : hasSub (cs "```") (pyStrip raw) = true
  · rw [if_pos hf]
    have h2 := splitAll_two_of_hasSub (cs "```") (pyStrip raw) (by decide) hf
    cases hget : (splitAll (cs "```") (pyStrip raw)).get? 1 with
    | none =>
      rw [List.get?_eq_none] at hget
      omega
    | some part => exact classifyAfterFence_ok _
  · rw [if_neg hf]
    exact classifyAfterFence_ok _

/-- The filter recurrence started from the zero state maps an all-zero
chunk to all-zero outputs and leaves the state at zero, for any
coefficient. -/
theorem hpChunk_zero {K : Type} [LinearOrderedField K] (alpha : K) :
    ∀ n : ℕ, hpChunk alpha 0 0 (List.replicate n 0) = (List.replicate n 0, 0, 0) := by
  intro n
  induction n with
  | zero => simp [hpChunk]
  | succ m ih =>
    simp only [List.replicate_succ, hpChunk, add_zero, sub_zero, mul_zero, ih]

/-- The filter coefficient of the source equals `16000 / (16000 + 170·π)`
and lies strictly between 0.9675 and 0.9679. -/
theorem hpAlpha_bounds : (0.9675 : ℝ) < hpAlpha ∧ hpAlpha < 0.9679 := by
  have hπ1 : (3.14 : ℝ) < Real.pi := Real.pi_gt_d2
  have hπ2 : Real.pi < 3.15 := Real.pi_lt_d2
  have hp : (0 : ℝ) < Real.pi := Real.pi_pos
  have heq : hpAlpha = 16000 / (16000 + 170 * Real.pi) := by
    unfold hpAlpha hpRC hpDt
    have hne : Real.pi ≠ 0 := ne_of_gt hp
    field_simp
    ring
  rw [heq]
  constructor
  · rw [lt_div_iff (by positivity)]
    nlinarith
  · rw [div_lt_iff (by positivity)]
    nlinarith

/-- C9, counterexample.  The claim gives α ≈ 0.9668; the coefficient the
source computes at 16 kHz with an 85 Hz cutoff is
`16000 / (16000 + 170·π) ≈ 0.9677`, which differs from 0.9668 by more than
0.0004 — the spec transposed the digits. -/
theorem claim_C9_counterexample : ¬ (|hpAlpha - 0.9668| ≤ 0.0004) := by
  intro habs
  have h2 := (abs_le.mp habs).2
  have h1 := hpAlpha_bounds.1
  linarith

/-- C9, amended.  α = RC/(RC+dt) at 16 kHz / 85 Hz is approximately 0.9677
(not 0.9668), and filtering an all-zero 1280-sample chunk from the initial
zero filter state yields an all-zero int16 output chunk with the state still
zero. -/
theorem claim_C9_amended :
    |hpAlpha - 0.9677| ≤ 0.0002 ∧
    highpassFilter hpAlpha (0 : ℝ) 0 (List.replicate 1280 0) =
      (List.replicate 1280 0, 0, 0) := by
  constructor
  · have h1 := hpAlpha_bounds.1
    have h2 := hpAlpha_bounds.2
    rw [abs_le]
    constructor <;> linarith
  · unfold highpassFilter
    rw [hpChunk_zero]
    have hval : truncInt (clip16 (0 : ℝ)) = 0 := by
      unfold truncInt clip16
      rw [min_eq_right (by norm_num), max_eq_right (by norm_num)]
      simp
    dsimp only
    rw [List.map_replicate, hval]
